import Mathlib

/-!
# Verification of the AI-Code-Reviewer-Bot review pipeline

Shallow embedding, in Lean 4, of the parts of the repository that the
checked claims are about:

* `services/ai_service.py` — `AIService._validate_review_response` and the
  comment-capping step of `AIService.review_code_changes_batch`;
* `services/analyzer_service.py` — `AnalyzerService._run_command`,
  `AnalyzerService._analyze_python` and `AnalyzerService.analyze_files`;
* `services/github_service.py` — `GitHubService._get_installation_token`
  (the installation-token cache);
* `jobs/review_task.py` — the `process_pr_review` Celery task's database
  bookkeeping (session creation, completion / failure updates, retry);
* `app.py` — the `github_webhook` handler's dispatch logic.

JSON values are modelled by the inductive `JVal` (numbers as `Int`; none of
the verified behaviour inspects fractional parts).  Python dictionaries
coming from parsed JSON are association lists with distinct keys.
-/

/-- A parsed JSON value (`json.loads` result).  Objects are association
lists; parsing collapses duplicate keys, so lookup-first on the list is
dict lookup. -/
inductive JVal where
  | null : JVal
  | bool : Bool → JVal
  | num : Int → JVal
  | str : String → JVal
  | arr : List JVal → JVal
  | obj : List (String × JVal) → JVal

/-- `d.get(k)` on a parsed JSON object: `none` when the key is absent or
the value is not a dict (where Python would raise). -/
def jlookup (j : JVal) (k : String) : Option JVal :=
  match j with
  | .obj fs => fs.lookup k
  | _ => none

/-- `d.get(k, default)` on a parsed JSON object. -/
def jgetD (j : JVal) (k : String) (d : JVal) : JVal :=
  (jlookup j k).getD d

/-- Python truthiness of a JSON value (`bool(x)`). -/
def pyTruthy : JVal → Bool
  | .null => false
  | .bool b => b
  | .num n => n != 0
  | .str s => s ≠ ""
  | .arr xs => !xs.isEmpty
  | .obj fs => !fs.isEmpty

namespace AIService

/-- `required_fields` of `AIService._validate_review_response`
(`services/ai_service.py:188`). -/
def requiredFields : List String :=
  ["inline_comments", "summary", "risk", "breaking_changes", "approval_recommendation"]

/-- `comment_fields` of `AIService._validate_review_response`
(`services/ai_service.py:198`). -/
def commentFields : List String :=
  ["path", "start_line", "end_line", "severity", "category", "comment"]

/-- The closed severity enum (`services/ai_service.py:204`). -/
def severityValues : List String := ["high", "medium", "low", "nit"]

/-- The closed category enum (`services/ai_service.py:208`). -/
def categoryValues : List String := ["security", "performance", "bug", "style", "architecture", "testing"]

/-- The closed risk enum (`services/ai_service.py:212`). -/
def riskValues : List String := ["Low", "Medium", "High"]

/-- The closed approval-recommendation enum (`services/ai_service.py:216`). -/
def approvalValues : List String := ["approve", "request_changes", "comment"]

/-- The first field of `fields` that is missing from the object `fs`
(the validation loops raise at the first missing field). -/
def firstMissing (fields : List String) (fs : List (String × JVal)) : Option String :=
  fields.find? (fun f => (fs.lookup f).isNone)

/-- Membership test `v in [s₁, …]` of a JSON value against a list of string
literals, with Python `==` semantics: only an equal string matches. -/
def strIn (v : JVal) (ss : List String) : Bool :=
  match v with
  | .str s => ss.contains s
  | _ => false

/-- Validation of one element of `inline_comments`
(`services/ai_service.py:197-209`): the six required sub-fields must be
present and `severity` / `category` must lie in their closed sets.
Returns the first error raised, `none` when the comment passes.  A comment
that is not a JSON object always makes the Python loop raise (a missing
required field, or a `TypeError` on subscripting), so it maps to an
error. -/
def commentError (c : JVal) : Option String :=
  match c with
  | .obj cf =>
    match firstMissing commentFields cf with
    | some f => some ("Missing required field in comment: " ++ f)
    | none =>
      if !strIn (jgetD c "severity" .null) severityValues then
        some "Invalid severity"
      else if !strIn (jgetD c "category" .null) categoryValues then
        some "Invalid category"
      else none
  | _ => some "Invalid comment structure"

/-- The first error raised by the `for comment in review_data["inline_comments"]`
loop, `none` if every comment passes. -/
def firstCommentError : List JVal → Option String
  | [] => none
  | c :: cs =>
    match commentError c with
    | some e => some e
    | none => firstCommentError cs

/-- `AIService._validate_review_response` (`services/ai_service.py:181-226`),
after JSON parsing: checks the five required top-level fields, that
`inline_comments` is a list whose members each carry the six required
sub-fields with `severity`/`category` in their closed sets, and that
`risk` and `approval_recommendation` lie in their closed sets; on success
the parsed object is returned unchanged.  A non-object top level always
raises in Python (missing-field `ValueError` or `TypeError` on
subscripting), so it maps to an error. -/
def validateReviewResponse (r : JVal) : Except String JVal :=
  match r with
  | .obj fs =>
    match firstMissing requiredFields fs with
    | some f => .error ("Missing required field: " ++ f)
    | none =>
      match fs.lookup "inline_comments" with
      | some (.arr cs) =>
        match firstCommentError cs with
        | some e => .error e
        | none =>
          if !strIn (jgetD r "risk" .null) riskValues then
            .error "Invalid risk level"
          else if !strIn (jgetD r "approval_recommendation" .null) approvalValues then
            .error "Invalid approval recommendation"
          else .ok r
      | some _ => .error "inline_comments must be a list"
      | none => .error "Missing required field: inline_comments"
  | _ => .error "response is not a JSON object"

/-- Claim-side well-formedness of an inline comment: all six required
sub-fields present, `severity` and `category` inside their closed enum
sets. -/
def goodComment (c : JVal) : Bool :=
  match c with
  | .obj cf =>
    commentFields.all (fun f => (cf.lookup f).isSome) &&
    strIn (jgetD c "severity" .null) severityValues &&
    strIn (jgetD c "category" .null) categoryValues
  | _ => false

/-- Claim-side well-formedness of a whole AI response: the five required
top-level fields present, `inline_comments` a list of well-formed
comments, `risk` and `approval_recommendation` inside their closed enum
sets. -/
def goodReviewResponse (r : JVal) : Bool :=
  match r with
  | .obj fs =>
    requiredFields.all (fun f => (fs.lookup f).isSome) &&
    (match fs.lookup "inline_comments" with
     | some (.arr cs) => cs.all goodComment
     | _ => false) &&
    strIn (jgetD r "risk" .null) riskValues &&
    strIn (jgetD r "approval_recommendation" .null) approvalValues
  | _ => false

end AIService

theorem AIService.firstMissing_eq_none_iff (fields : List String) (fs : List (String × JVal)) :
    AIService.firstMissing fields fs = none ↔
      fields.all (fun f => (fs.lookup f).isSome) = true := by
  simp [AIService.firstMissing, List.find?_eq_none, List.all_eq_true]

theorem AIService.commentError_eq_none_iff (c : JVal) :
    AIService.commentError c = none ↔ AIService.goodComment c = true := by
  cases c with
  | obj cf =>
    simp only [AIService.commentError, AIService.goodComment]
    cases hfm : AIService.firstMissing AIService.commentFields cf with
    | some f =>
      have hall : ¬ (AIService.commentFields.all (fun f => (cf.lookup f).isSome) = true) := by
        intro hall
        rw [← AIService.firstMissing_eq_none_iff] at hall
        rw [hall] at hfm
        exact Option.noConfusion hfm
      simp [hall]
    | none =>
      have hall := (AIService.firstMissing_eq_none_iff AIService.commentFields cf).mp hfm
      by_cases hs : AIService.strIn (jgetD (.obj cf) "severity" .null) AIService.severityValues
      · by_cases hc : AIService.strIn (jgetD (.obj cf) "category" .null) AIService.categoryValues
        · simp [hs, hc, hall]
        · simp [hs, hc]
      · simp [hs]
  | null => simp [AIService.commentError, AIService.goodComment]
  | bool b => simp [AIService.commentError, AIService.goodComment]
  | num n => simp [AIService.commentError, AIService.goodComment]
  | str s => simp [AIService.commentError, AIService.goodComment]
  | arr xs => simp [AIService.commentError, AIService.goodComment]

theorem AIService.firstCommentError_eq_none_iff (cs : List JVal) :
    AIService.firstCommentError cs = none ↔ cs.all AIService.goodComment = true := by
  induction cs with
  | nil => simp [AIService.firstCommentError]
  | cons c cs ih =>
    simp only [AIService.firstCommentError, List.all_cons]
    cases hce : AIService.commentError c with
    | some e =>
      have : ¬ (AIService.goodComment c = true) := by
        intro hg
        rw [← AIService.commentError_eq_none_iff] at hg
        rw [hg] at hce
        exact Option.noConfusion hce
      simp [this]
    | none =>
      have hg := (AIService.commentError_eq_none_iff c).mp hce
      simp [hg, ih]

/-- **C4.** AI-response validation fails closed: `_validate_review_response`
succeeds — returning the parsed object unchanged — exactly when the five
required top-level fields are present, `inline_comments` is a list whose
every comment carries the six required sub-fields, and `severity`,
`category`, `risk` and `approval_recommendation` each lie in their closed
enum sets; any missing field or out-of-set enum value yields an error. -/
theorem validateReviewResponse_ok_iff_good (r : JVal) :
    AIService.validateReviewResponse r = .ok r ↔ AIService.goodReviewResponse r = true := by
  cases r with
  | obj fs =>
    simp only [AIService.validateReviewResponse, AIService.goodReviewResponse]
    cases hfm : AIService.firstMissing AIService.requiredFields fs with
    | some f =>
      have hall : ¬ (AIService.requiredFields.all (fun f => (fs.lookup f).isSome) = true) := by
        intro hall
        rw [← AIService.firstMissing_eq_none_iff] at hall
        rw [hall] at hfm
        exact Option.noConfusion hfm
      simp [hall]
    | none =>
      have hall := (AIService.firstMissing_eq_none_iff AIService.requiredFields fs).mp hfm
      cases hic : fs.lookup "inline_comments" with
      | none => simp [hic]
      | some v =>
        cases v with
        | arr cs =>
          cases hce : AIService.firstCommentError cs with
          | some e =>
            have : ¬ (cs.all AIService.goodComment = true) := by
              intro hg
              rw [← AIService.firstCommentError_eq_none_iff] at hg
              rw [hg] at hce
              exact Option.noConfusion hce
            simp [hce, this]
          | none =>
            have hg := (AIService.firstCommentError_eq_none_iff cs).mp hce
            by_cases hr : AIService.strIn (jgetD (.obj fs) "risk" .null) AIService.riskValues
            · by_cases ha : AIService.strIn (jgetD (.obj fs) "approval_recommendation" .null)
                  AIService.approvalValues
              · simp [hce, hr, ha, hall, hg]
              · simp [hce, hr, ha]
            · simp [hce, hr]
        | null => simp [hic]
        | bool b => simp [hic]
        | num n => simp [hic]
        | str s => simp [hic]
        | obj gs => simp [hic]
  | null => simp [AIService.validateReviewResponse, AIService.goodReviewResponse]
  | bool b => simp [AIService.validateReviewResponse, AIService.goodReviewResponse]
  | num n => simp [AIService.validateReviewResponse, AIService.goodReviewResponse]
  | str s => simp [AIService.validateReviewResponse, AIService.goodReviewResponse]
  | arr xs => simp [AIService.validateReviewResponse, AIService.goodReviewResponse]

/-- A synthetic AI response whose single inline comment carries the given
`start_line` / `end_line` values; every other field is well formed. -/
def mkLineResponse (v1 v2 : JVal) : JVal :=
  .obj [("inline_comments", .arr [.obj
          [("path", .str "src/a.py"), ("start_line", v1), ("end_line", v2),
           ("severity", .str "high"), ("category", .str "bug"),
           ("comment", .str "possible nil dereference")]]),
        ("summary", .str "one issue"),
        ("risk", .str "Low"),
        ("breaking_changes", .bool false),
        ("approval_recommendation", .str "comment")]

/-- **C10.** Validation places no constraint on line numbers: for any
values whatsoever of `start_line` and `end_line` — zero, negative numbers,
`end_line < start_line`, even non-integer JSON values — a response that
satisfies the field-presence and enum checks passes
`_validate_review_response` and is returned unchanged. -/
theorem validate_ignores_line_values (v1 v2 : JVal) :
    AIService.validateReviewResponse (mkLineResponse v1 v2) = .ok (mkLineResponse v1 v2) := by
  rfl

/-- A member of `review_data["inline_comments"]` after validation succeeded:
the six sub-fields guaranteed by `_validate_review_response` (`start_line`
and `end_line` stay raw JSON values — validation constrains only their
presence). -/
structure InlineComment where
  path : String
  start_line : JVal
  end_line : JVal
  severity : String
  category : String
  comment : String

/-- `severity_order.get(x["severity"], 0)` with
`severity_order = {"high": 4, "medium": 3, "low": 2, "nit": 1}`
(`services/ai_service.py:352-354`). -/
def severityRank (s : String) : Nat :=
  if s = "high" then 4
  else if s = "medium" then 3
  else if s = "low" then 2
  else if s = "nit" then 1
  else 0

/-- The sort key of the capping step applied to one comment. -/
def commentRank (c : InlineComment) : Nat := severityRank c.severity

/-- Stable insertion for a descending key sort: the new element goes in
front of the first element whose key is not larger, so an element never
jumps ahead of an equal-key element that came earlier. -/
def pyInsertDesc (key : α → Nat) (c : α) : List α → List α
  | [] => [c]
  | x :: xs => if key x ≤ key c then c :: x :: xs else x :: pyInsertDesc key c xs

/-- `list.sort(key=…, reverse=True)`: Python's sort is stable and `reverse`
preserves the original order of key-equal elements, so as a function it is
exactly the stable descending sort (implemented here by insertion, which
has the same input/output behaviour as Timsort). -/
def pySortDesc (key : α → Nat) : List α → List α
  | [] => []
  | c :: cs => pyInsertDesc key c (pySortDesc key cs)

theorem perm_pyInsertDesc (key : α → Nat) (c : α) :
    ∀ l : List α, (pyInsertDesc key c l).Perm (c :: l)
  | [] => List.Perm.refl _
  | x :: xs => by
    unfold pyInsertDesc
    by_cases h : key x ≤ key c
    · rw [if_pos h]
    · rw [if_neg h]
      exact (List.Perm.cons x (perm_pyInsertDesc key c xs)).trans (List.Perm.swap c x xs)

theorem perm_pySortDesc (key : α → Nat) :
    ∀ l : List α, (pySortDesc key l).Perm l
  | [] => List.Perm.refl _
  | c :: cs =>
    (perm_pyInsertDesc key c (pySortDesc key cs)).trans
      (List.Perm.cons c (perm_pySortDesc key cs))

theorem length_pySortDesc (key : α → Nat) (l : List α) :
    (pySortDesc key l).length = l.length :=
  (perm_pySortDesc key l).length_eq

theorem pairwise_pyInsertDesc (key : α → Nat) (c : α) {l : List α}
    (h : l.Pairwise (fun a b => key b ≤ key a)) :
    (pyInsertDesc key c l).Pairwise (fun a b => key b ≤ key a) := by
  induction l with
  | nil => simp [pyInsertDesc]
  | cons x xs ih =>
    rw [List.pairwise_cons] at h
    obtain ⟨hx, hxs⟩ := h
    unfold pyInsertDesc
    by_cases hc : key x ≤ key c
    · rw [if_pos hc]
      refine List.Pairwise.cons ?_ (List.Pairwise.cons hx hxs)
      intro y hy
      rcases List.mem_cons.mp hy with rfl | hy
      · exact hc
      · exact Nat.le_trans (hx y hy) hc
    · rw [if_neg hc]
      refine List.Pairwise.cons ?_ (ih hxs)
      intro y hy
      have hy' : y ∈ c :: xs := (perm_pyInsertDesc key c xs).mem_iff.mp hy
      rcases List.mem_cons.mp hy' with rfl | h1
      · omega
      · exact hx y h1

theorem pairwise_pySortDesc (key : α → Nat) (l : List α) :
    (pySortDesc key l).Pairwise (fun a b => key b ≤ key a) := by
  induction l with
  | nil => exact List.Pairwise.nil
  | cons c cs ih => exact pairwise_pyInsertDesc key c ih

theorem filter_pyInsertDesc_of_eq (key : α → Nat) (c : α) (n : Nat) (hn : key c = n) :
    ∀ l : List α,
      (pyInsertDesc key c l).filter (fun x => decide (key x = n)) =
        c :: l.filter (fun x => decide (key x = n))
  | [] => by simp [pyInsertDesc, hn]
  | x :: xs => by
    unfold pyInsertDesc
    by_cases h : key x ≤ key c
    · rw [if_pos h]
      simp [hn]
    · rw [if_neg h]
      have hx : ¬ key x = n := by omega
      simp [List.filter_cons, hx, filter_pyInsertDesc_of_eq key c n hn xs]

theorem filter_pyInsertDesc_of_ne (key : α → Nat) (c : α) (n : Nat) (hn : ¬ key c = n) :
    ∀ l : List α,
      (pyInsertDesc key c l).filter (fun x => decide (key x = n)) =
        l.filter (fun x => decide (key x = n))
  | [] => by simp [pyInsertDesc, hn]
  | x :: xs => by
    unfold pyInsertDesc
    by_cases h : key x ≤ key c
    · rw [if_pos h]
      simp [hn]
    · rw [if_neg h]
      by_cases hx : key x = n
      · simp [hx, filter_pyInsertDesc_of_ne key c n hn xs]
      · simp [hx, filter_pyInsertDesc_of_ne key c n hn xs]

theorem filter_pySortDesc (key : α → Nat) (n : Nat) :
    ∀ l : List α,
      (pySortDesc key l).filter (fun x => decide (key x = n)) =
        l.filter (fun x => decide (key x = n))
  | [] => rfl
  | c :: cs => by
    unfold pySortDesc
    by_cases hc : key c = n
    · rw [filter_pyInsertDesc_of_eq key c n hc, filter_pySortDesc key n cs]
      simp [hc]
    · rw [filter_pyInsertDesc_of_ne key c n hc, filter_pySortDesc key n cs]
      simp [hc]

/-- The slice of `review_data` that the capping step of
`AIService.review_code_changes_batch` reads or writes. -/
structure ReviewData where
  inline_comments : List InlineComment
  summary : String
  risk : String
  breaking_changes : Bool
  approval_recommendation : String

/-- The truncation note appended to `summary`
(`services/ai_service.py:360`). -/
def capNote (maxComments : Nat) : String :=
  "\n\n*Note: Limited to " ++ toString maxComments ++ " most important comments.*"

/-- The comment-capping step of `AIService.review_code_changes_batch`
(`services/ai_service.py:349-361`): when more than `max_comments` inline
comments are present, stable-sort them by severity rank descending, keep
the first `max_comments`, and append the truncation note to `summary`;
otherwise the review data is returned untouched. -/
def capComments (maxComments : Nat) (rd : ReviewData) : ReviewData :=
  if maxComments < rd.inline_comments.length then
    { rd with
      inline_comments := (pySortDesc commentRank rd.inline_comments).take maxComments,
      summary := rd.summary ++ capNote maxComments }
  else rd

/-- **C5.** When the validated review holds more than `max_comments`
inline comments, capping retains exactly `max_comments` of them, taken as
the longest prefix of the stable descending sort by severity rank
(high=4 > medium=3 > low=2 > nit=1): the retained list is a prefix of a
reordering `s` of the comments that is sorted by rank descending and keeps
key-equal comments in their original relative order, and the truncation
note is appended to the summary. -/
theorem capComments_truncates (maxComments : Nat) (rd : ReviewData)
    (h : maxComments < rd.inline_comments.length) :
    ∃ s : List InlineComment,
      s.Perm rd.inline_comments ∧
      s.Pairwise (fun a b => commentRank b ≤ commentRank a) ∧
      (∀ n, s.filter (fun c => decide (commentRank c = n)) =
            rd.inline_comments.filter (fun c => decide (commentRank c = n))) ∧
      (capComments maxComments rd).inline_comments = s.take maxComments ∧
      (capComments maxComments rd).inline_comments.length = maxComments ∧
      (capComments maxComments rd).summary = rd.summary ++ capNote maxComments := by
  refine ⟨pySortDesc commentRank rd.inline_comments,
    perm_pySortDesc commentRank rd.inline_comments,
    pairwise_pySortDesc commentRank rd.inline_comments,
    fun n => filter_pySortDesc commentRank n rd.inline_comments, ?_, ?_, ?_⟩
  · simp [capComments, h]
  · simp [capComments, h, List.length_take, length_pySortDesc]
    omega
  · simp [capComments, h]

theorem capComments_truncates_witness :
    1 < ([⟨"a", .num 1, .num 1, "low", "style", "x"⟩,
          ⟨"b", .num 2, .num 2, "high", "bug", "y"⟩] : List InlineComment).length ∧
    ∃ s : List InlineComment,
      s.Perm [⟨"a", .num 1, .num 1, "low", "style", "x"⟩,
              ⟨"b", .num 2, .num 2, "high", "bug", "y"⟩] ∧
      s.Pairwise (fun a b => commentRank b ≤ commentRank a) ∧
      (∀ n, s.filter (fun c => decide (commentRank c = n)) =
            ([⟨"a", .num 1, .num 1, "low", "style", "x"⟩,
              ⟨"b", .num 2, .num 2, "high", "bug", "y"⟩] : List InlineComment).filter
              (fun c => decide (commentRank c = n))) ∧
      (capComments 1 ⟨[⟨"a", .num 1, .num 1, "low", "style", "x"⟩,
                       ⟨"b", .num 2, .num 2, "high", "bug", "y"⟩],
                      "sum", "Low", false, "approve"⟩).inline_comments = s.take 1 ∧
      (capComments 1 ⟨[⟨"a", .num 1, .num 1, "low", "style", "x"⟩,
                       ⟨"b", .num 2, .num 2, "high", "bug", "y"⟩],
                      "sum", "Low", false, "approve"⟩).inline_comments.length = 1 ∧
      (capComments 1 ⟨[⟨"a", .num 1, .num 1, "low", "style", "x"⟩,
                       ⟨"b", .num 2, .num 2, "high", "bug", "y"⟩],
                      "sum", "Low", false, "approve"⟩).summary = "sum" ++ capNote 1 :=
  ⟨by decide,
   capComments_truncates 1
     ⟨[⟨"a", .num 1, .num 1, "low", "style", "x"⟩,
       ⟨"b", .num 2, .num 2, "high", "bug", "y"⟩],
      "sum", "Low", false, "approve"⟩ (by decide)⟩

/-- **C6.** Comment capping is idempotent: for every review data and every
`max_comments`, capping an already-capped review changes nothing — the
comment list (and the summary) come out identical. -/
theorem capComments_idempotent (maxComments : Nat) (rd : ReviewData) :
    capComments maxComments (capComments maxComments rd) = capComments maxComments rd := by
  by_cases h : maxComments < rd.inline_comments.length
  · have hlen : (capComments maxComments rd).inline_comments.length = maxComments := by
      simp [capComments, h, List.length_take, length_pySortDesc]
      omega
    rw [capComments, if_neg]
    rw [hlen]
    omega
  · have heq : capComments maxComments rd = rd := by simp [capComments, h]
    rw [heq, heq]

namespace AnalyzerService

/-- Outcome of launching one external analyzer process
(`AnalyzerService._run_command`, `services/analyzer_service.py:62-88`):
the process ran to completion, the wait timed out
(`asyncio.TimeoutError`), or launching raised — e.g. the binary is not
installed (`FileNotFoundError`, carried as its rendered message). -/
inductive RunOutcome where
  | ran (exitCode : Int) (stdout : String) (stderr : String)
  | timedOut
  | raised (msg : String)

/-- `AnalyzerService._run_command`'s returned `(exit_code, stdout, stderr)`
triple: a timeout or a launch exception is caught and mapped to
`(-1, "", message)`. -/
def runCommand : RunOutcome → Int × String × String
  | .ran c out err => (c, out, err)
  | .timedOut => (-1, "", "Command timed out")
  | .raised msg => (-1, "", msg)

/-- One normalized issue record `{tool, severity, message, line, code}`
(severity is always a string literal chosen by the analyzer; the other
payloads are carried JSON values). -/
structure Issue where
  tool : String
  severity : String
  message : JVal
  line : JVal
  code : JVal

/-- One entry of the per-file `results["tools"]` map. -/
structure ToolEntry where
  status : String
  output : JVal

/-- The per-file accumulator: the `results["tools"]` map (dicts preserve
insertion order) and the `results["issues"]` list, mutated in place by the
tool steps of `_analyze_python`. -/
structure ToolState where
  tools : List (String × ToolEntry)
  issues : List Issue

/-- Append an entry to the `results["tools"]` map. -/
def addTool (st : ToolState) (name : String) (e : ToolEntry) : ToolState :=
  { st with tools := st.tools ++ [(name, e)] }

/-- Severity of one ruff finding:
`"medium" if issue.get("code", "").startswith("E") else "low"`; `none`
when the `code` value is not a string (Python raises there). -/
def ruffSeverity (issue : JVal) : Option String :=
  match jgetD issue "code" (.str "") with
  | .str s => some (if s.startsWith "E" then "medium" else "low")
  | _ => none

/-- Line of one ruff finding: `issue.get("location", {}).get("row", 0)`;
`none` when the `location` value is not a dict (Python raises there). -/
def ruffLine (issue : JVal) : Option JVal :=
  match jgetD issue "location" (.obj []) with
  | .obj loc => some ((loc.lookup "row").getD (.num 0))
  | _ => none

/-- Conversion of one parsed ruff finding to an issue record
(`services/analyzer_service.py:121-128`); `none` when Python raises. -/
def ruffIssue (issue : JVal) : Option Issue :=
  match issue with
  | .obj _ =>
    match ruffSeverity issue, ruffLine issue with
    | some sev, some ln =>
      some ⟨"ruff", sev, jgetD issue "message" (.str ""), ln, jgetD issue "code" (.str "")⟩
    | _, _ => none
  | _ => none

/-- Conversion of one parsed bandit finding
(`services/analyzer_service.py:164-171`); Python `==` makes any non-string
`issue_severity` compare unequal to `"HIGH"`. -/
def banditIssue (issue : JVal) : Option Issue :=
  match issue with
  | .obj _ =>
    some ⟨"bandit",
      (match jgetD issue "issue_severity" .null with
       | .str "HIGH" => "high"
       | _ => "medium"),
      jgetD issue "issue_text" (.str ""),
      jgetD issue "line_number" (.num 0),
      jgetD issue "test_id" (.str "")⟩
  | _ => none

/-- `for issue in parsed: …` over a list of parsed findings: the converted
prefix, plus whether the loop raised (the first unconvertible finding
aborts the loop with an exception). -/
def convertList (f : JVal → Option Issue) : List JVal → List Issue × Bool
  | [] => ([], false)
  | j :: js =>
    match f j with
    | some i =>
      let (is, r) := convertList f js
      (i :: is, r)
    | none => ([], true)

/-- `for issue in parsed: …` over an arbitrary parsed JSON value:
iterating a non-empty dict yields key strings and iterating a non-empty
string yields characters — the first body access raises either way; empty
containers iterate zero times; other values are not iterable at all. -/
def iterIssues (f : JVal → Option Issue) : JVal → List Issue × Bool
  | .arr js => convertList f js
  | .obj [] => ([], false)
  | .str "" => ([], false)
  | _ => ([], true)

/-- The ruff block of `_analyze_python`
(`services/analyzer_service.py:106-130`), guarded by
`settings.enable_python_analyzers`.  `jp` is Python's `json.loads`
(`none` = `json.JSONDecodeError`); with empty stdout the parse is
short-circuited to `[]`.  The returned flag reports an uncaught exception
escaping the block (only a conversion failure; `JSONDecodeError` itself is
caught and recorded as `status: "error"`). -/
def ruffStep (enable : Bool) (jp : String → Option JVal) (o : RunOutcome)
    (st : ToolState) : ToolState × Bool :=
  if enable then
    let (code, out, err) := runCommand o
    if code = 0 then (addTool st "ruff" ⟨"passed", .str out⟩, false)
    else
      match (if out = "" then some (JVal.arr []) else jp out) with
      | none => (addTool st "ruff" ⟨"error", .str err⟩, false)
      | some parsed =>
        let st1 := addTool st "ruff" ⟨"failed", parsed⟩
        let (newIssues, raisedFlag) := iterIssues ruffIssue parsed
        ({ st1 with issues := st1.issues ++ newIssues }, raisedFlag)
  else (st, false)

/-- The black block of `_analyze_python`
(`services/analyzer_service.py:132-148`): no output parsing, a non-zero
exit appends one generic low-severity formatting issue. -/
def blackStep (o : RunOutcome) (st : ToolState) : ToolState :=
  let (code, out, _err) := runCommand o
  if code = 0 then addTool st "black" ⟨"passed", .str "Code is properly formatted"⟩
  else
    let st1 := addTool st "black" ⟨"failed", .str out⟩
    { st1 with issues := st1.issues ++
        [⟨"black", "low", .str "Code formatting issues detected", .num 0, .str "formatting"⟩] }

/-- `bandit_results.get("results", [])`; `none` when the parsed value is
not a dict (Python raises there). -/
def banditResults (parsed : JVal) : Option JVal :=
  match parsed with
  | .obj fs => some ((fs.lookup "results").getD (.arr []))
  | _ => none

/-- The bandit block of `_analyze_python`
(`services/analyzer_service.py:150-173`); with empty stdout the parse is
short-circuited to `{}`. -/
def banditStep (jp : String → Option JVal) (o : RunOutcome)
    (st : ToolState) : ToolState × Bool :=
  let (code, out, err) := runCommand o
  if code = 0 then (addTool st "bandit" ⟨"passed", .str "No security issues found"⟩, false)
  else
    match (if out = "" then some (JVal.obj []) else jp out) with
    | none => (addTool st "bandit" ⟨"error", .str err⟩, false)
    | some parsed =>
      let st1 := addTool st "bandit" ⟨"failed", parsed⟩
      match banditResults parsed with
      | none => (st1, true)
      | some rs =>
        let (newIssues, raisedFlag) := iterIssues banditIssue rs
        ({ st1 with issues := st1.issues ++ newIssues }, raisedFlag)

/-- `int(parts[1]) if parts[1].isdigit() else 0`. -/
def pyIntIfDigit (s : String) : Int :=
  if s.toList.all Char.isDigit && !s.isEmpty then ((s.toNat?).getD 0 : Nat) else 0

/-- Parsing of one line of mypy stdout
(`services/analyzer_service.py:187-199`): lines containing `error:` and
splitting into at least four colon-parts yield a medium `type-check`
issue. -/
def mypyParseLine (line : String) : Option Issue :=
  if 2 ≤ (line.splitOn "error:").length then
    match line.splitOn ":" with
    | _ :: p1 :: _ :: p3 :: _ =>
      some ⟨"mypy", "medium", .str p3.trim, .num (pyIntIfDigit p1), .str "type-check"⟩
    | _ => none
  else none

/-- The mypy block of `_analyze_python`
(`services/analyzer_service.py:175-199`): textual parsing of stdout, no
exception possible. -/
def mypyStep (o : RunOutcome) (st : ToolState) : ToolState :=
  let (code, out, _err) := runCommand o
  if code = 0 then addTool st "mypy" ⟨"passed", .str "No type errors found"⟩
  else
    let st1 := addTool st "mypy" ⟨"failed", .str out⟩
    { st1 with issues := st1.issues ++ (out.splitOn "\n").filterMap mypyParseLine }

/-- The per-file summary string (`services/analyzer_service.py:209-218`). -/
def issueSummary (issues : List Issue) : String :=
  if issues.length = 0 then "No issues found"
  else
    "Found " ++ toString issues.length ++ " issues: "
      ++ toString (issues.countP (fun i => i.severity == "high")) ++ " high, "
      ++ toString (issues.countP (fun i => i.severity == "medium")) ++ " medium, "
      ++ toString (issues.countP (fun i => i.severity == "low")) ++ " low"

/-- The per-file analysis result dict of `_analyze_python`: language,
tools map, issue list, summary, and the `results["error"]` annotation set
by the enclosing `except` (the message is the rendered Python
exception). -/
structure FileResult where
  language : String
  tools : List (String × ToolEntry)
  issues : List Issue
  summary : String
  error : Option String

/-- `AnalyzerService._analyze_python` (`services/analyzer_service.py:90-220`):
runs ruff (if enabled), black, bandit and mypy in order on the temporary
copy of the file; an exception escaping a tool block skips the remaining
tools and is recorded in `results["error"]`, everything accumulated so far
is kept, and the summary is computed regardless.  Temp-file I/O errors are
not modelled. -/
def analyzePython (enable : Bool) (jp : String → Option JVal)
    (oRuff oBlack oBandit oMypy : RunOutcome) : FileResult :=
  let (st1, r1) := ruffStep enable jp oRuff ⟨[], []⟩
  if r1 then ⟨"python", st1.tools, st1.issues, issueSummary st1.issues, some "exception"⟩
  else
    let st2 := blackStep oBlack st1
    let (st3, r3) := banditStep jp oBandit st2
    if r3 then ⟨"python", st3.tools, st3.issues, issueSummary st3.issues, some "exception"⟩
    else
      let st4 := mypyStep oMypy st3
      ⟨"python", st4.tools, st4.issues, issueSummary st4.issues, none⟩

end AnalyzerService

/-- **C3 (counterexample).** With the `ruff` binary missing (the launch
raises, so `_run_command` returns `(-1, "", msg)` with empty stdout) and
the other three tools succeeding, the per-file tools map records ruff with
status `"failed"` — not `"error"` as the claim states — while the
remaining tools still run and the file's analysis completes without
error. -/
theorem missing_tool_not_error_status :
    (((AnalyzerService.analyzePython true (fun _ => none)
        (.raised "FileNotFoundError: ruff") (.ran 0 "" "") (.ran 0 "" "")
        (.ran 0 "" "")).tools.lookup "ruff").map AnalyzerService.ToolEntry.status
      = some "failed") ∧
    (((AnalyzerService.analyzePython true (fun _ => none)
        (.raised "FileNotFoundError: ruff") (.ran 0 "" "") (.ran 0 "" "")
        (.ran 0 "" "")).tools.lookup "ruff").map AnalyzerService.ToolEntry.status
      ≠ some "error") ∧
    ((AnalyzerService.analyzePython true (fun _ => none)
        (.raised "FileNotFoundError: ruff") (.ran 0 "" "") (.ran 0 "" "")
        (.ran 0 "" "")).tools.map Prod.fst = ["ruff", "black", "bandit", "mypy"]) ∧
    ((AnalyzerService.analyzePython true (fun _ => none)
        (.raised "FileNotFoundError: ruff") (.ran 0 "" "") (.ran 0 "" "")
        (.ran 0 "" "")).error = none) := by
  refine ⟨rfl, ?_, rfl, rfl⟩
  intro h
  exact absurd (Option.some.inj h) (by decide)

/-- The `status` a tool block records for a `_run_command` result: exit
code `0` is `"passed"`, anything else (with parseable or empty output) is
`"failed"`. -/
def statusFor (o : AnalyzerService.RunOutcome) : String :=
  if (AnalyzerService.runCommand o).1 = 0 then "passed" else "failed"

/-- The backend's binary was unavailable: launching raised (not
installed) or the run timed out. -/
def unavailableOutcome (o : AnalyzerService.RunOutcome) : Prop :=
  (∃ m, o = .raised m) ∨ o = .timedOut

/-- The backend either was unavailable or ran and exited cleanly (so its
block cannot raise while converting findings). -/
def nonRaisingOutcome (o : AnalyzerService.RunOutcome) : Prop :=
  unavailableOutcome o ∨ ∃ out err, o = .ran 0 out err

theorem runCommand_shape (o : AnalyzerService.RunOutcome) (h : nonRaisingOutcome o) :
    (∃ m, AnalyzerService.runCommand o = (-1, "", m)) ∨
      (∃ out err, AnalyzerService.runCommand o = (0, out, err)) := by
  rcases h with (⟨m, rfl⟩ | rfl) | ⟨out, err, rfl⟩
  · exact Or.inl ⟨m, rfl⟩
  · exact Or.inl ⟨"Command timed out", rfl⟩
  · exact Or.inr ⟨out, err, rfl⟩

/-- **C3 (amended).** For every analyzed Python file, when an analyzer
backend's binary is not installed or its run times out, that backend's
entry in the per-file tools map is recorded with status `"failed"` (with
empty parsed output) for that tool only — not `"error"`, which is reserved
for unparseable non-empty tool output — and analysis of the remaining
tools still runs and returns its partial results: all four tool entries
are present and the file's result carries no error. -/
theorem analyzePython_unavailable_degrades (jp : String → Option JVal)
    (o1 o2 o3 o4 : AnalyzerService.RunOutcome)
    (h1 : nonRaisingOutcome o1) (h2 : nonRaisingOutcome o2)
    (h3 : nonRaisingOutcome o3) (h4 : nonRaisingOutcome o4) :
    (AnalyzerService.analyzePython true jp o1 o2 o3 o4).error = none ∧
    (AnalyzerService.analyzePython true jp o1 o2 o3 o4).tools.map Prod.fst
      = ["ruff", "black", "bandit", "mypy"] ∧
    (AnalyzerService.analyzePython true jp o1 o2 o3 o4).tools.map
        (fun p => p.2.status)
      = [statusFor o1, statusFor o2, statusFor o3, statusFor o4] ∧
    (∀ o, unavailableOutcome o → statusFor o = "failed") := by
  have hunav : ∀ o, unavailableOutcome o → statusFor o = "failed" := by
    intro o ho
    rcases ho with ⟨m, rfl⟩ | rfl <;> rfl
  rcases runCommand_shape o1 h1 with ⟨m1, e1⟩ | ⟨s1, t1, e1⟩ <;>
    rcases runCommand_shape o2 h2 with ⟨m2, e2⟩ | ⟨s2, t2, e2⟩ <;>
      rcases runCommand_shape o3 h3 with ⟨m3, e3⟩ | ⟨s3, t3, e3⟩ <;>
        rcases runCommand_shape o4 h4 with ⟨m4, e4⟩ | ⟨s4, t4, e4⟩ <;>
          refine ⟨?_, ?_, ?_, hunav⟩ <;>
            simp [AnalyzerService.analyzePython, AnalyzerService.ruffStep,
              AnalyzerService.blackStep, AnalyzerService.banditStep,
              AnalyzerService.mypyStep, AnalyzerService.addTool,
              AnalyzerService.banditResults, AnalyzerService.iterIssues,
              AnalyzerService.convertList, statusFor, e1, e2, e3, e4]

theorem analyzePython_unavailable_degrades_witness :
    (AnalyzerService.analyzePython true (fun _ => none) (.raised "ruff missing")
        .timedOut (.ran 0 "" "") (.raised "mypy missing")).error = none ∧
    (AnalyzerService.analyzePython true (fun _ => none) (.raised "ruff missing")
        .timedOut (.ran 0 "" "") (.raised "mypy missing")).tools.map Prod.fst
      = ["ruff", "black", "bandit", "mypy"] ∧
    (AnalyzerService.analyzePython true (fun _ => none) (.raised "ruff missing")
        .timedOut (.ran 0 "" "") (.raised "mypy missing")).tools.map
        (fun p => p.2.status)
      = [statusFor (.raised "ruff missing"), statusFor .timedOut,
         statusFor (.ran 0 "" ""), statusFor (.raised "mypy missing")] ∧
    (∀ o, unavailableOutcome o → statusFor o = "failed") :=
  analyzePython_unavailable_degrades (fun _ => none) (.raised "ruff missing")
    .timedOut (.ran 0 "" "") (.raised "mypy missing")
    (Or.inl (Or.inl ⟨"ruff missing", rfl⟩)) (Or.inl (Or.inr rfl))
    (Or.inr ⟨"", "", rfl⟩) (Or.inl (Or.inl ⟨"mypy missing", rfl⟩))

namespace AnalyzerService

/-- The extension → language map of `AnalyzerService._detect_language`
(`services/analyzer_service.py:48-58`). -/
def languageMap : List (String × String) :=
  [(".py", "python"), (".js", "javascript"), (".jsx", "javascript"),
   (".ts", "typescript"), (".tsx", "typescript"), (".java", "java"),
   (".sql", "sql"), (".go", "go"), (".rs", "rust")]

/-- `Path(file_path).suffix`: the extension of the final path component —
the substring from its last dot, provided that dot is neither the leading
nor the trailing character of the component. -/
def fileSuffix (p : String) : String :=
  let name := ((p.splitOn "/").getLastD "").toList
  match name.reverse.findIdx? (fun ch => ch = '.') with
  | none => ""
  | some r =>
    let i := name.length - 1 - r
    if 0 < i ∧ i < name.length - 1 then String.mk (name.drop i) else ""

/-- `AnalyzerService._detect_language` (`services/analyzer_service.py:44-60`):
lower-cased extension looked up in the map, `"unknown"` otherwise. -/
def detectLanguage (p : String) : String :=
  (languageMap.lookup (fileSuffix p).toLower).getD "unknown"

/-- The keys of `self.supported_languages`
(`services/analyzer_service.py:28-36`). -/
def supportedLanguages : List String :=
  ["python", "javascript", "typescript", "java", "sql", "go", "rust"]

/-- `results["summary"]["languages"]` bookkeeping
(`services/analyzer_service.py:606-608`): insert the language with count 0
when absent, then increment (dicts preserve insertion order). -/
def bumpLang : List (String × Nat) → String → List (String × Nat)
  | [], lang => [(lang, 1)]
  | (k, n) :: rest, lang =>
    if k = lang then (k, n + 1) :: rest else (k, n) :: bumpLang rest lang

/-- The accumulator of the `for file_path in file_paths` loop of
`analyze_files`: per-file results, per-language counts, total issue count
and the three per-severity counters of `issues_by_severity`. -/
structure LoopState where
  files : List (String × FileResult)
  languages : List (String × Nat)
  total_issues : Nat
  issues_high : Nat
  issues_medium : Nat
  issues_low : Nat

/-- The per-issue summary update (`services/analyzer_service.py:618-622`):
each issue bumps the total, and its severity counter when the severity is
one of the three keys of `issues_by_severity`. -/
def countIssues (st : LoopState) : List Issue → LoopState
  | [] => st
  | i :: is =>
    let st1 := { st with total_issues := st.total_issues + 1 }
    let st2 :=
      if i.severity = "high" then { st1 with issues_high := st1.issues_high + 1 }
      else if i.severity = "medium" then { st1 with issues_medium := st1.issues_medium + 1 }
      else if i.severity = "low" then { st1 with issues_low := st1.issues_low + 1 }
      else st1
    countIssues st2 is

/-- The file loop of `AnalyzerService.analyze_files`
(`services/analyzer_service.py:595-622`): files with no fetched content or
an unsupported language are skipped with a warning; otherwise the
language counter is bumped, the file is dispatched to its language's
analyzer (`dispatch` stands for the `self.supported_languages` method
table) and its issues are folded into the summary counters. -/
def analyzeLoop (dispatch : String → String → String → FileResult)
    (contents : List (String × String)) : List String → LoopState → LoopState
  | [], st => st
  | path :: rest, st =>
    match contents.lookup path with
    | none => analyzeLoop dispatch contents rest st
    | some content =>
      let language := detectLanguage path
      if supportedLanguages.contains language then
        let st1 := { st with languages := bumpLang st.languages language }
        let fr := dispatch language path content
        let st2 := { st1 with files := st1.files ++ [(path, fr)] }
        analyzeLoop dispatch contents rest (countIssues st2 fr.issues)
      else analyzeLoop dispatch contents rest st

/-- `results["summary"]` of `analyze_files`, including the overall status
and message computed after the loop. -/
structure AnalysisSummary where
  total_files : Nat
  languages : List (String × Nat)
  total_issues : Nat
  issues_high : Nat
  issues_medium : Nat
  issues_low : Nat
  overall_status : String
  message : String

/-- The result dict of `analyze_files`. -/
structure AnalysisResults where
  files : List (String × FileResult)
  summary : AnalysisSummary

/-- `results["summary"]["overall_status"]` derivation
(`services/analyzer_service.py:624-641`): `clean` when no issue was
counted, else `critical` when the high counter is positive, else
`warning` when the medium counter is positive, else `info`. -/
def overallStatus (st : LoopState) : String :=
  if st.total_issues = 0 then "clean"
  else if 0 < st.issues_high then "critical"
  else if 0 < st.issues_medium then "warning"
  else "info"

/-- `results["summary"]["message"]`, assigned in the same branches as the
overall status. -/
def overallMessage (st : LoopState) : String :=
  if st.total_issues = 0 then "No issues found in any files"
  else if 0 < st.issues_high then
    "Found " ++ toString st.issues_high ++ " high-severity issues"
  else if 0 < st.issues_medium then
    "Found " ++ toString st.issues_medium ++ " medium-severity issues"
  else "Found " ++ toString st.issues_low ++ " low-severity issues"

/-- `AnalyzerService.analyze_files` (`services/analyzer_service.py:572-650`):
runs the file loop over all the PR's changed files, then attaches the
derived overall status and message to the summary. -/
def analyzeFiles (dispatch : String → String → String → FileResult)
    (file_paths : List String) (contents : List (String × String)) : AnalysisResults :=
  let st := analyzeLoop dispatch contents file_paths ⟨[], [], 0, 0, 0, 0⟩
  ⟨st.files,
   ⟨file_paths.length, st.languages, st.total_issues, st.issues_high,
    st.issues_medium, st.issues_low, overallStatus st, overallMessage st⟩⟩

/-- A file of the PR is actually analyzed when its content was fetched and
its detected language is supported. -/
def analyzedFile (contents : List (String × String)) (p : String) : Bool :=
  (contents.lookup p).isSome && supportedLanguages.contains (detectLanguage p)

/-- The issues the dispatched analyzer reports for one analyzed file. -/
def issuesOfPath (dispatch : String → String → String → FileResult)
    (contents : List (String × String)) (p : String) : List Issue :=
  (dispatch (detectLanguage p) p ((contents.lookup p).getD "")).issues

/-- All issues reported across the analyzed files of the PR, in file
order. -/
def allIssues (dispatch : String → String → String → FileResult)
    (contents : List (String × String)) : List String → List Issue
  | [] => []
  | p :: ps =>
    (if analyzedFile contents p then issuesOfPath dispatch contents p else [])
      ++ allIssues dispatch contents ps

end AnalyzerService

theorem lookup_bumpLang (ls : List (String × Nat)) (lang k : String) :
    (((AnalyzerService.bumpLang ls lang).lookup k).getD 0)
      = ((ls.lookup k).getD 0) + (if k = lang then 1 else 0) := by
  induction ls with
  | nil =>
    by_cases h : k = lang
    · have hb : (k == lang) = true := by simp [h]
      simp [AnalyzerService.bumpLang, List.lookup, hb, h]
    · have hb : (k == lang) = false := by simp [h]
      simp [AnalyzerService.bumpLang, List.lookup, hb, h]
  | cons e rest ih =>
    obtain ⟨k', n⟩ := e
    by_cases hk : k' = lang
    · simp only [AnalyzerService.bumpLang, if_pos hk]
      by_cases h : k = k'
      · subst h
        simp [List.lookup, hk]
      · have hb : (k == k') = false := by simp [h]
        have hkl : ¬ k = lang := fun e => h (e.trans hk.symm)
        simp [List.lookup, hb, hkl]
    · simp only [AnalyzerService.bumpLang, if_neg hk]
      by_cases h : k = k'
      · have hb : (k == k') = true := by simp [h]
        have hkl : ¬ k = lang := fun e => hk (h.symm.trans e)
        simp [List.lookup, hb, hkl]
      · have hb : (k == k') = false := by simp [h]
        simp [List.lookup, hb, ih]

theorem countIssues_spec : ∀ (is : List AnalyzerService.Issue) (st : AnalyzerService.LoopState),
    AnalyzerService.countIssues st is =
      ⟨st.files, st.languages,
       st.total_issues + is.length,
       st.issues_high + is.countP (fun i => i.severity == "high"),
       st.issues_medium + is.countP (fun i => i.severity == "medium"),
       st.issues_low + is.countP (fun i => i.severity == "low")⟩
  | [], st => by simp [AnalyzerService.countIssues]
  | i :: is, st => by
    rw [AnalyzerService.countIssues, countIssues_spec is _]
    by_cases hh : i.severity = "high"
    · have bh : (i.severity == "high") = true := by simp [hh]
      have bm : (i.severity == "medium") = false := by simp [hh]
      have bl : (i.severity == "low") = false := by simp [hh]
      simp [hh, List.countP_cons, bh, bm, bl, AnalyzerService.LoopState.mk.injEq]
      omega
    · by_cases hm : i.severity = "medium"
      · have bh : (i.severity == "high") = false := by simp [hm]
        have bm : (i.severity == "medium") = true := by simp [hm]
        have bl : (i.severity == "low") = false := by simp [hm]
        simp [hh, hm, List.countP_cons, bh, bm, bl, AnalyzerService.LoopState.mk.injEq]
        omega
      · by_cases hl : i.severity = "low"
        · have bh : (i.severity == "high") = false := by simp [hl]
          have bm : (i.severity == "medium") = false := by simp [hl]
          have bl : (i.severity == "low") = true := by simp [hl]
          simp [hh, hm, hl, List.countP_cons, bh, bm, bl, AnalyzerService.LoopState.mk.injEq]
          omega
        · have bh : (i.severity == "high") = false := by simp [hh]
          have bm : (i.severity == "medium") = false := by simp [hm]
          have bl : (i.severity == "low") = false := by simp [hl]
          simp [hh, hm, hl, List.countP_cons, bh, bm, bl, AnalyzerService.LoopState.mk.injEq]
          omega

theorem analyzeLoop_spec (dispatch : String → String → String → AnalyzerService.FileResult)
    (contents : List (String × String)) (paths : List String) :
    ∀ st : AnalyzerService.LoopState,
      (AnalyzerService.analyzeLoop dispatch contents paths st).total_issues
        = st.total_issues + (AnalyzerService.allIssues dispatch contents paths).length ∧
      (AnalyzerService.analyzeLoop dispatch contents paths st).issues_high
        = st.issues_high + (AnalyzerService.allIssues dispatch contents paths).countP
            (fun i => i.severity == "high") ∧
      (AnalyzerService.analyzeLoop dispatch contents paths st).issues_medium
        = st.issues_medium + (AnalyzerService.allIssues dispatch contents paths).countP
            (fun i => i.severity == "medium") ∧
      (AnalyzerService.analyzeLoop dispatch contents paths st).issues_low
        = st.issues_low + (AnalyzerService.allIssues dispatch contents paths).countP
            (fun i => i.severity == "low") ∧
      ∀ k, (((AnalyzerService.analyzeLoop dispatch contents paths st).languages).lookup k).getD 0
        = ((st.languages.lookup k).getD 0)
          + paths.countP (fun p => AnalyzerService.analyzedFile contents p
              && decide (AnalyzerService.detectLanguage p = k)) := by
  induction paths with
  | nil =>
    intro st
    simp [AnalyzerService.analyzeLoop, AnalyzerService.allIssues]
  | cons path rest ih =>
    intro st
    cases hc : List.lookup path contents with
    | none =>
      have ha : AnalyzerService.analyzedFile contents path = false := by
        simp [AnalyzerService.analyzedFile, hc]
      simp [AnalyzerService.analyzeLoop, hc, AnalyzerService.allIssues, ha,
        List.countP_cons, ih st]
    | some content =>
      cases hl : AnalyzerService.supportedLanguages.contains
          (AnalyzerService.detectLanguage path) with
      | true =>
        have hmem : AnalyzerService.detectLanguage path ∈ AnalyzerService.supportedLanguages :=
          List.mem_of_elem_eq_true hl
        have ha : AnalyzerService.analyzedFile contents path = true := by
          simp [AnalyzerService.analyzedFile, hc, hmem]
        have hstep : AnalyzerService.analyzeLoop dispatch contents (path :: rest) st
            = AnalyzerService.analyzeLoop dispatch contents rest
                (AnalyzerService.countIssues
                  ⟨st.files ++ [(path, dispatch (AnalyzerService.detectLanguage path) path content)],
                   AnalyzerService.bumpLang st.languages (AnalyzerService.detectLanguage path),
                   st.total_issues, st.issues_high, st.issues_medium, st.issues_low⟩
                  (dispatch (AnalyzerService.detectLanguage path) path content).issues) := by
          simp only [AnalyzerService.analyzeLoop, hc]
          rw [if_pos hl]
        have hiss : AnalyzerService.allIssues dispatch contents (path :: rest)
            = (dispatch (AnalyzerService.detectLanguage path) path content).issues
              ++ AnalyzerService.allIssues dispatch contents rest := by
          simp [AnalyzerService.allIssues, ha, AnalyzerService.issuesOfPath, hc]
        rw [hstep, countIssues_spec]
        obtain ⟨h1, h2, h3, h4, h5⟩ := ih
          ⟨st.files ++ [(path, dispatch (AnalyzerService.detectLanguage path) path content)],
           AnalyzerService.bumpLang st.languages (AnalyzerService.detectLanguage path),
           st.total_issues + (dispatch (AnalyzerService.detectLanguage path) path content).issues.length,
           st.issues_high + (dispatch (AnalyzerService.detectLanguage path) path content).issues.countP
             (fun i => i.severity == "high"),
           st.issues_medium + (dispatch (AnalyzerService.detectLanguage path) path content).issues.countP
             (fun i => i.severity == "medium"),
           st.issues_low + (dispatch (AnalyzerService.detectLanguage path) path content).issues.countP
             (fun i => i.severity == "low")⟩
        refine ⟨?_, ?_, ?_, ?_, ?_⟩
        · rw [h1, hiss]
          simp
          omega
        · rw [h2, hiss]
          simp [List.countP_append]
          omega
        · rw [h3, hiss]
          simp [List.countP_append]
          omega
        · rw [h4, hiss]
          simp [List.countP_append]
          omega
        · intro k
          rw [h5 k]
          simp only [lookup_bumpLang, List.countP_cons, ha, Bool.true_and]
          by_cases hdk : AnalyzerService.detectLanguage path = k
          · simp [hdk]
            omega
          · have hkd : ¬ k = AnalyzerService.detectLanguage path := fun e => hdk e.symm
            simp [hdk, hkd]
      | false =>
        have hnmem : AnalyzerService.detectLanguage path ∉ AnalyzerService.supportedLanguages := by
          intro hm
          have h2 : AnalyzerService.supportedLanguages.contains
              (AnalyzerService.detectLanguage path) = true :=
            List.elem_eq_true_of_mem hm
          rw [hl] at h2
          exact Bool.noConfusion h2
        have ha : AnalyzerService.analyzedFile contents path = false := by
          simp [AnalyzerService.analyzedFile, hc, hnmem]
        have hcond : ¬ (AnalyzerService.supportedLanguages.contains
            (AnalyzerService.detectLanguage path) = true) := fun h => by
          rw [hl] at h
          exact Bool.noConfusion h
        have hstep : AnalyzerService.analyzeLoop dispatch contents (path :: rest) st
            = AnalyzerService.analyzeLoop dispatch contents rest st := by
          simp only [AnalyzerService.analyzeLoop, hc]
          rw [if_neg hcond]
        rw [hstep]
        simp [AnalyzerService.allIssues, ha, List.countP_cons, ih st]

theorem mem_allIssues {dispatch : String → String → String → AnalyzerService.FileResult}
    {contents : List (String × String)} {i : AnalyzerService.Issue} :
    ∀ {paths : List String}, i ∈ AnalyzerService.allIssues dispatch contents paths →
      ∃ l p c, i ∈ (dispatch l p c).issues := by
  intro paths
  induction paths with
  | nil =>
    intro h
    simp [AnalyzerService.allIssues] at h
  | cons p ps ih =>
    intro h
    rw [AnalyzerService.allIssues] at h
    rcases List.mem_append.mp h with h1 | h1
    · by_cases ha : AnalyzerService.analyzedFile contents p = true
      · rw [if_pos ha] at h1
        rw [AnalyzerService.issuesOfPath] at h1
        exact ⟨_, _, _, h1⟩
      · rw [if_neg ha] at h1
        simp at h1
    · exact ih h1

theorem status_chain (L : List AnalyzerService.Issue)
    (hsev3 : ∀ i ∈ L, i.severity = "high" ∨ i.severity = "medium" ∨ i.severity = "low") :
    (if L.length = 0 then "clean"
     else if 0 < L.countP (fun i => i.severity == "high") then "critical"
     else if 0 < L.countP (fun i => i.severity == "medium") then "warning"
     else "info")
    = (if L.any (fun i => i.severity == "high") then "critical"
       else if L.any (fun i => i.severity == "medium") then "warning"
       else if L.any (fun i => i.severity == "low") then "info"
       else "clean") := by
  cases L with
  | nil => simp
  | cons j js =>
    have hlen : ¬ ((j :: js).length = 0) := by simp
    rw [if_neg hlen]
    by_cases hH : (j :: js).any (fun i => i.severity == "high") = true
    · have hpos : 0 < (j :: js).countP (fun i => i.severity == "high") := by
        rw [List.countP_pos_iff]
        exact List.any_eq_true.mp hH
      rw [if_pos hpos, if_pos hH]
    · have hz : (j :: js).countP (fun i => i.severity == "high") = 0 := by
        rw [List.countP_eq_zero]
        intro a ha hpa
        exact hH (List.any_eq_true.mpr ⟨a, ha, hpa⟩)
      have hnpos : ¬ 0 < (j :: js).countP (fun i => i.severity == "high") := by omega
      rw [if_neg hnpos, if_neg hH]
      by_cases hM : (j :: js).any (fun i => i.severity == "medium") = true
      · have hpos : 0 < (j :: js).countP (fun i => i.severity == "medium") := by
          rw [List.countP_pos_iff]
          exact List.any_eq_true.mp hM
        rw [if_pos hpos, if_pos hM]
      · have hz2 : (j :: js).countP (fun i => i.severity == "medium") = 0 := by
          rw [List.countP_eq_zero]
          intro a ha hpa
          exact hM (List.any_eq_true.mpr ⟨a, ha, hpa⟩)
        have hnpos2 : ¬ 0 < (j :: js).countP (fun i => i.severity == "medium") := by omega
        rw [if_neg hnpos2, if_neg hM]
        by_cases hL : (j :: js).any (fun i => i.severity == "low") = true
        · rw [if_pos hL]
        · exfalso
          rcases hsev3 j (List.mem_cons_self j js) with h | h | h
          · exact hH (List.any_eq_true.mpr ⟨j, List.mem_cons_self j js, by simp [h]⟩)
          · exact hM (List.any_eq_true.mpr ⟨j, List.mem_cons_self j js, by simp [h]⟩)
          · exact hL (List.any_eq_true.mpr ⟨j, List.mem_cons_self j js, by simp [h]⟩)

/-- **C8.** For every multi-file analysis, the PR-level summary reports
the total file count, per-language counts of the analyzed files, the
total issue count and per-severity issue counts over all analyzed files'
issues, and its overall status is derived from the highest severity
present among those issues: any high yields `"critical"`, else any medium
yields `"warning"`, else any low yields `"info"`, else `"clean"`.
(`dispatch` is the per-language analyzer table; as in the source, each
analyzer only ever emits severities `high`/`medium`/`low`.) -/
theorem analyzeFiles_rollup
    (dispatch : String → String → String → AnalyzerService.FileResult)
    (file_paths : List String) (contents : List (String × String))
    (hsev : ∀ l p c, ∀ i ∈ (dispatch l p c).issues,
        i.severity = "high" ∨ i.severity = "medium" ∨ i.severity = "low") :
    (AnalyzerService.analyzeFiles dispatch file_paths contents).summary.total_files
      = file_paths.length ∧
    (∀ k, (((AnalyzerService.analyzeFiles dispatch file_paths contents).summary.languages).lookup k).getD 0
      = file_paths.countP (fun p => AnalyzerService.analyzedFile contents p
          && decide (AnalyzerService.detectLanguage p = k))) ∧
    (AnalyzerService.analyzeFiles dispatch file_paths contents).summary.total_issues
      = (AnalyzerService.allIssues dispatch contents file_paths).length ∧
    (AnalyzerService.analyzeFiles dispatch file_paths contents).summary.issues_high
      = (AnalyzerService.allIssues dispatch contents file_paths).countP
          (fun i => i.severity == "high") ∧
    (AnalyzerService.analyzeFiles dispatch file_paths contents).summary.issues_medium
      = (AnalyzerService.allIssues dispatch contents file_paths).countP
          (fun i => i.severity == "medium") ∧
    (AnalyzerService.analyzeFiles dispatch file_paths contents).summary.issues_low
      = (AnalyzerService.allIssues dispatch contents file_paths).countP
          (fun i => i.severity == "low") ∧
    (AnalyzerService.analyzeFiles dispatch file_paths contents).summary.overall_status
      = (if (AnalyzerService.allIssues dispatch contents file_paths).any
            (fun i => i.severity == "high") then "critical"
         else if (AnalyzerService.allIssues dispatch contents file_paths).any
            (fun i => i.severity == "medium") then "warning"
         else if (AnalyzerService.allIssues dispatch contents file_paths).any
            (fun i => i.severity == "low") then "info"
         else "clean") := by
  obtain ⟨h1, h2, h3, h4, h5⟩ := analyzeLoop_spec dispatch contents file_paths ⟨[], [], 0, 0, 0, 0⟩
  refine ⟨rfl, ?_, ?_, ?_, ?_, ?_, ?_⟩
  · intro k
    have hk := h5 k
    simp only [List.lookup] at hk
    simpa [AnalyzerService.analyzeFiles] using hk
  · simpa [AnalyzerService.analyzeFiles] using h1
  · simpa [AnalyzerService.analyzeFiles] using h2
  · simpa [AnalyzerService.analyzeFiles] using h3
  · simpa [AnalyzerService.analyzeFiles] using h4
  · have e1 : (AnalyzerService.analyzeLoop dispatch contents file_paths
        ⟨[], [], 0, 0, 0, 0⟩).total_issues
        = (AnalyzerService.allIssues dispatch contents file_paths).length := by
      simpa using h1
    have e2 : (AnalyzerService.analyzeLoop dispatch contents file_paths
        ⟨[], [], 0, 0, 0, 0⟩).issues_high
        = (AnalyzerService.allIssues dispatch contents file_paths).countP
            (fun i => i.severity == "high") := by
      simpa using h2
    have e3 : (AnalyzerService.analyzeLoop dispatch contents file_paths
        ⟨[], [], 0, 0, 0, 0⟩).issues_medium
        = (AnalyzerService.allIssues dispatch contents file_paths).countP
            (fun i => i.severity == "medium") := by
      simpa using h3
    have hsev3 : ∀ i ∈ AnalyzerService.allIssues dispatch contents file_paths,
        i.severity = "high" ∨ i.severity = "medium" ∨ i.severity = "low" := by
      intro i hi
      obtain ⟨l, p, c, hm⟩ := mem_allIssues hi
      exact hsev l p c i hm
    calc (AnalyzerService.analyzeFiles dispatch file_paths contents).summary.overall_status
        = (if (AnalyzerService.allIssues dispatch contents file_paths).length = 0 then "clean"
           else if 0 < (AnalyzerService.allIssues dispatch contents file_paths).countP
              (fun i => i.severity == "high") then "critical"
           else if 0 < (AnalyzerService.allIssues dispatch contents file_paths).countP
              (fun i => i.severity == "medium") then "warning"
           else "info") := by
          simp only [AnalyzerService.analyzeFiles, AnalyzerService.overallStatus, e1, e2, e3]
      _ = _ := status_chain (AnalyzerService.allIssues dispatch contents file_paths) hsev3

/-- A concrete one-language analyzer table: every file yields one
high-severity finding. -/
def exampleDispatch : String → String → String → AnalyzerService.FileResult :=
  fun _ _ _ =>
    ⟨"python", [("ruff", ⟨"failed", .arr []⟩)],
     [⟨"ruff", "high", .str "eval used", .num 3, .str "S307"⟩],
     "Found 1 issues: 1 high, 0 medium, 0 low", none⟩

theorem analyzeFiles_rollup_witness :
    (∀ l p c, ∀ i ∈ (exampleDispatch l p c).issues,
        i.severity = "high" ∨ i.severity = "medium" ∨ i.severity = "low") ∧
    ((AnalyzerService.analyzeFiles exampleDispatch ["a.py"] [("a.py", "x")]).summary.total_files
      = (["a.py"] : List String).length ∧
    (∀ k, (((AnalyzerService.analyzeFiles exampleDispatch ["a.py"] [("a.py", "x")]).summary.languages).lookup k).getD 0
      = (["a.py"] : List String).countP (fun p => AnalyzerService.analyzedFile [("a.py", "x")] p
          && decide (AnalyzerService.detectLanguage p = k))) ∧
    (AnalyzerService.analyzeFiles exampleDispatch ["a.py"] [("a.py", "x")]).summary.total_issues
      = (AnalyzerService.allIssues exampleDispatch [("a.py", "x")] ["a.py"]).length ∧
    (AnalyzerService.analyzeFiles exampleDispatch ["a.py"] [("a.py", "x")]).summary.issues_high
      = (AnalyzerService.allIssues exampleDispatch [("a.py", "x")] ["a.py"]).countP
          (fun i => i.severity == "high") ∧
    (AnalyzerService.analyzeFiles exampleDispatch ["a.py"] [("a.py", "x")]).summary.issues_medium
      = (AnalyzerService.allIssues exampleDispatch [("a.py", "x")] ["a.py"]).countP
          (fun i => i.severity == "medium") ∧
    (AnalyzerService.analyzeFiles exampleDispatch ["a.py"] [("a.py", "x")]).summary.issues_low
      = (AnalyzerService.allIssues exampleDispatch [("a.py", "x")] ["a.py"]).countP
          (fun i => i.severity == "low") ∧
    (AnalyzerService.analyzeFiles exampleDispatch ["a.py"] [("a.py", "x")]).summary.overall_status
      = (if (AnalyzerService.allIssues exampleDispatch [("a.py", "x")] ["a.py"]).any
            (fun i => i.severity == "high") then "critical"
         else if (AnalyzerService.allIssues exampleDispatch [("a.py", "x")] ["a.py"]).any
            (fun i => i.severity == "medium") then "warning"
         else if (AnalyzerService.allIssues exampleDispatch [("a.py", "x")] ["a.py"]).any
            (fun i => i.severity == "low") then "info"
         else "clean")) := by
  have hs : ∀ l p c, ∀ i ∈ (exampleDispatch l p c).issues,
      i.severity = "high" ∨ i.severity = "medium" ∨ i.severity = "low" := by
    intro l p c i hi
    simp only [exampleDispatch, List.mem_singleton] at hi
    subst hi
    exact Or.inl rfl
  exact ⟨hs, analyzeFiles_rollup exampleDispatch ["a.py"] [("a.py", "x")] hs⟩

namespace GitHubService

/-- One value of the in-memory `self._installation_tokens` cache: the
bearer token and its cached expiry (`datetime` modelled as an integral
timestamp in seconds). -/
structure TokenEntry where
  token : String
  expires_at : Int

/-- Python dict assignment `self._installation_tokens[id] = …`: replace in
place, or append when the key is new. -/
def cacheInsert : List (String × TokenEntry) → String → TokenEntry → List (String × TokenEntry)
  | [], k, v => [(k, v)]
  | (k', v') :: rest, k, v =>
    if k' = k then (k, v) :: rest else (k', v') :: cacheInsert rest k v

/-- The JWT-signed token-exchange POST's response
(`POST /app/installations/{id}/access_tokens`): HTTP status, and the
payload's `token` and `expires_in` seconds. -/
structure ExchangeResponse where
  status : Nat
  token : String
  expires_in : Int

/-- The exchange branch of `_get_installation_token`
(`services/github_service.py:74-106`): a status other than 201 raises;
otherwise the token is cached with
`expires_at = now + (expires_in - 60)` — the server-side expiry minus the
60-second safety margin — and returned.  The `Bool` reports that a
JWT-signed exchange HTTP call was performed. -/
def mintToken (installation_id : String) (now : Int) (resp : ExchangeResponse)
    (cache : List (String × TokenEntry)) :
    Except String (String × List (String × TokenEntry) × Bool) :=
  if resp.status ≠ 201 then
    .error ("Failed to get installation token: " ++ toString resp.status)
  else
    .ok (resp.token,
         cacheInsert cache installation_id ⟨resp.token, now + (resp.expires_in - 60)⟩,
         true)

/-- `GitHubService._get_installation_token`
(`services/github_service.py:66-106`): a cached entry is returned — with
no exchange call — exactly while `expires_at > now`; otherwise a fresh
JWT-signed exchange is performed and cached.  The two `datetime.now()`
readings of one call are modelled by the single `now` argument. -/
def getInstallationToken (installation_id : String) (now : Int)
    (resp : ExchangeResponse) (cache : List (String × TokenEntry)) :
    Except String (String × List (String × TokenEntry) × Bool) :=
  match cache.lookup installation_id with
  | some entry =>
    if entry.expires_at > now then .ok (entry.token, cache, false)
    else mintToken installation_id now resp cache
  | none => mintToken installation_id now resp cache

end GitHubService

theorem lookup_cacheInsert_self (cache : List (String × GitHubService.TokenEntry))
    (k : String) (v : GitHubService.TokenEntry) :
    (GitHubService.cacheInsert cache k v).lookup k = some v := by
  induction cache with
  | nil => simp [GitHubService.cacheInsert, List.lookup]
  | cons e rest ih =>
    obtain ⟨k', v'⟩ := e
    by_cases h : k' = k
    · simp only [GitHubService.cacheInsert, if_pos h]
      simp [List.lookup]
    · simp only [GitHubService.cacheInsert, if_neg h]
      have hb : (k == k') = false := by
        simp
        exact fun e => h e.symm
      simp [List.lookup, hb, ih]

/-- **C7.** Installation-token caching: starting from a cache with no
entry for the installation, the first request performs a JWT-signed
exchange call and caches the token with expiry
`now + (expires_in - 60)` — the server-reported expiry minus the
60-second safety margin; a second request strictly before that expiry
performs no exchange call and returns the cached token (so the pair of
requests performs exactly one exchange), while a second request at or
after that expiry performs a second exchange call. -/
theorem tokenCache_single_exchange (installation_id tok tok2 : String)
    (e1 e2 t1 t2 : Int) (cache : List (String × GitHubService.TokenEntry))
    (hmiss : cache.lookup installation_id = none) :
    GitHubService.getInstallationToken installation_id t1 ⟨201, tok, e1⟩ cache
      = .ok (tok, GitHubService.cacheInsert cache installation_id
          ⟨tok, t1 + (e1 - 60)⟩, true) ∧
    (t2 < t1 + (e1 - 60) →
      GitHubService.getInstallationToken installation_id t2 ⟨201, tok2, e2⟩
          (GitHubService.cacheInsert cache installation_id ⟨tok, t1 + (e1 - 60)⟩)
        = .ok (tok, GitHubService.cacheInsert cache installation_id
            ⟨tok, t1 + (e1 - 60)⟩, false)) ∧
    (t1 + (e1 - 60) ≤ t2 →
      GitHubService.getInstallationToken installation_id t2 ⟨201, tok2, e2⟩
          (GitHubService.cacheInsert cache installation_id ⟨tok, t1 + (e1 - 60)⟩)
        = .ok (tok2, GitHubService.cacheInsert
            (GitHubService.cacheInsert cache installation_id ⟨tok, t1 + (e1 - 60)⟩)
            installation_id ⟨tok2, t2 + (e2 - 60)⟩, true)) := by
  refine ⟨?_, ?_, ?_⟩
  · simp [GitHubService.getInstallationToken, hmiss, GitHubService.mintToken]
  · intro hlt
    simp [GitHubService.getInstallationToken, lookup_cacheInsert_self, hlt]
  · intro hge
    have hnot : ¬ (t1 + (e1 - 60) > t2) := by omega
    simp [GitHubService.getInstallationToken, lookup_cacheInsert_self, hnot,
      GitHubService.mintToken]

theorem tokenCache_single_exchange_witness :
    (([] : List (String × GitHubService.TokenEntry)).lookup "inst1" = none) ∧
    (GitHubService.getInstallationToken "inst1" 0 ⟨201, "tokA", 3600⟩ []
      = .ok ("tokA", [("inst1", ⟨"tokA", 3540⟩)], true)) ∧
    (GitHubService.getInstallationToken "inst1" 1000 ⟨201, "tokB", 3600⟩
        [("inst1", ⟨"tokA", 3540⟩)]
      = .ok ("tokA", [("inst1", ⟨"tokA", 3540⟩)], false)) ∧
    (GitHubService.getInstallationToken "inst1" 3540 ⟨201, "tokB", 3600⟩
        [("inst1", ⟨"tokA", 3540⟩)]
      = .ok ("tokB", [("inst1", ⟨"tokB", 7080⟩)], true)) := by
  have h1 := tokenCache_single_exchange "inst1" "tokA" "tokB" 3600 3600 0 1000 [] rfl
  have h2 := tokenCache_single_exchange "inst1" "tokA" "tokB" 3600 3600 0 3540 [] rfl
  refine ⟨rfl, ?_, ?_, ?_⟩
  · have := h1.1
    simpa using this
  · have := h1.2.1 (by decide)
    simpa using this
  · have := h2.2.2 (by decide)
    simpa using this

namespace ReviewTask

/-- `ReviewSession.status` values (`db/models.py:29`). -/
inductive SessStatus where
  | pending
  | in_progress
  | completed
  | failed
deriving DecidableEq

/-- A `review_sessions` row, restricted to the columns the
`process_pr_review` task reads or writes for its status bookkeeping
(`db/models.py:17-57`; result columns other than `risk_level`, and
timestamps, are modelled by their representative `risk_level`). -/
structure SessionRow where
  id : Nat
  owner : String
  repo : String
  pull_number : Nat
  installation_id : String
  status : SessStatus
  risk_level : Option String
  error_message : Option String
  retry_count : Option Nat
deriving DecidableEq

/-- The autoincrement primary key the INSERT of a new `ReviewSession` row
receives: strictly larger than every existing id. -/
def freshId (db : List SessionRow) : Nat :=
  db.foldr (fun r m => max r.id m) 0 + 1

/-- `db_session.query(ReviewSession).filter(ReviewSession.id == sid).first()`
followed by marking the session completed
(`jobs/review_task.py:127-136`): the first row with the given id gets
status `completed`; the emitted pair records the status transition the
UPDATE performed. -/
def completeFirst (sid : Nat) : List SessionRow → List SessionRow × List (SessStatus × SessStatus)
  | [] => ([], [])
  | r :: rs =>
    if r.id = sid then ({ r with status := .completed } :: rs, [(r.status, .completed)])
    else
      let (rs2, ts) := completeFirst sid rs
      (r :: rs2, ts)

/-- The failure bookkeeping (`jobs/review_task.py:162-177`): the first row
with the given id gets status `failed`, the exception message, and the
structured error details (represented by their `retry_count`). -/
def failFirst (sid : Nat) (msg : String) (retries : Nat) :
    List SessionRow → List SessionRow × List (SessStatus × SessStatus)
  | [] => ([], [])
  | r :: rs =>
    if r.id = sid then
      ({ r with status := .failed, error_message := some msg,
                retry_count := some retries } :: rs, [(r.status, .failed)])
    else
      let (rs2, ts) := failFirst sid msg retries rs
      (r :: rs2, ts)

/-- The mid-run results UPDATE of `_run_review_process`
(`jobs/review_task.py:252-281`): review-result columns are written on the
first row with the given id — the status column is not touched — and the
`ReviewComment` INSERTs of the same transaction touch no session row. -/
def saveResultsFirst (sid : Nat) (risk : String) : List SessionRow → List SessionRow
  | [] => []
  | r :: rs =>
    if r.id = sid then { r with risk_level := some risk } :: rs
    else r :: saveResultsFirst sid risk rs

/-- How one execution of `_run_review_process` ends: it returns normally
(after its results UPDATE), it raises after the results UPDATE committed
(e.g. while posting to GitHub), or it raises before reaching it (e.g.
while fetching the diff or validating the AI response). -/
inductive ReviewOutcome where
  | success (risk : String)
  | failAfterResults (risk : String) (msg : String)
  | failEarly (msg : String)

/-- How the Celery task run ends towards the queue. -/
inductive TaskEnd where
  | succeeded
  | retryScheduled (countdown : Nat)
  | permanentFailure
deriving DecidableEq

/-- What one run of `process_pr_review` did to the `review_sessions`
table. -/
structure RunResult where
  db : List SessionRow
  transitions : List (SessStatus × SessStatus)
  outcome : TaskEnd

/-- One run of the `process_pr_review` Celery task
(`jobs/review_task.py:63-190`) from the session table's point of view —
initial delivery and every retry redelivery alike execute this same body:
a new `ReviewSession` row is inserted with status `in_progress`
(lines 98-112), `_run_review_process` runs (its ending given by
`outcome`), and the session is then marked `completed` (125-143) or
`failed` (161-177); on failure with `self.request.retries < max_retries`
(3) the task is rescheduled with countdown `60 * 2^retries` (179-187),
otherwise the exception is re-raised to the queue (190). -/
def processPrReview (owner repo : String) (pull_number : Nat) (installation_id : String)
    (retries : Nat) (outcome : ReviewOutcome) (db : List SessionRow) : RunResult :=
  let sid := freshId db
  let db1 := db ++ [⟨sid, owner, repo, pull_number, installation_id,
                     .in_progress, none, none, none⟩]
  match outcome with
  | .success risk =>
    let db2 := saveResultsFirst sid risk db1
    let res := completeFirst sid db2
    ⟨res.1, res.2, .succeeded⟩
  | .failAfterResults risk msg =>
    let db2 := saveResultsFirst sid risk db1
    let res := failFirst sid msg retries db2
    if retries < 3 then ⟨res.1, res.2, .retryScheduled (60 * 2 ^ retries)⟩
    else ⟨res.1, res.2, .permanentFailure⟩
  | .failEarly msg =>
    let res := failFirst sid msg retries db1
    if retries < 3 then ⟨res.1, res.2, .retryScheduled (60 * 2 ^ retries)⟩
    else ⟨res.1, res.2, .permanentFailure⟩

end ReviewTask

theorem mem_id_lt_freshId {r : ReviewTask.SessionRow} :
    ∀ {db : List ReviewTask.SessionRow}, r ∈ db → r.id < ReviewTask.freshId db := by
  intro db
  induction db with
  | nil => intro h; simp at h
  | cons x xs ih =>
    intro h
    rcases List.mem_cons.mp h with rfl | h1
    · simp only [ReviewTask.freshId, List.foldr_cons]
      omega
    · have := ih h1
      simp only [ReviewTask.freshId, List.foldr_cons] at this ⊢
      omega

theorem saveResultsFirst_append_fresh (sid : Nat) (risk : String)
    (row : ReviewTask.SessionRow) (hrow : row.id = sid) :
    ∀ db : List ReviewTask.SessionRow, (∀ r ∈ db, r.id ≠ sid) →
      ReviewTask.saveResultsFirst sid risk (db ++ [row])
        = db ++ [{ row with risk_level := some risk }]
  | [], _ => by simp [ReviewTask.saveResultsFirst, hrow]
  | r :: rs, h => by
    have hr : ¬ r.id = sid := h r (List.mem_cons_self r rs)
    have ih := saveResultsFirst_append_fresh sid risk row hrow rs
      (fun x hx => h x (List.mem_cons_of_mem r hx))
    simp only [List.cons_append, ReviewTask.saveResultsFirst, if_neg hr, List.append_eq]
    rw [ih]

theorem completeFirst_append_fresh (sid : Nat)
    (row : ReviewTask.SessionRow) (hrow : row.id = sid) :
    ∀ db : List ReviewTask.SessionRow, (∀ r ∈ db, r.id ≠ sid) →
      ReviewTask.completeFirst sid (db ++ [row])
        = (db ++ [{ row with status := .completed }], [(row.status, .completed)])
  | [], _ => by simp [ReviewTask.completeFirst, hrow]
  | r :: rs, h => by
    have hr : ¬ r.id = sid := h r (List.mem_cons_self r rs)
    have ih := completeFirst_append_fresh sid row hrow rs
      (fun x hx => h x (List.mem_cons_of_mem r hx))
    simp only [List.cons_append, ReviewTask.completeFirst, if_neg hr, List.append_eq]
    rw [ih]

theorem failFirst_append_fresh (sid : Nat) (msg : String) (retries : Nat)
    (row : ReviewTask.SessionRow) (hrow : row.id = sid) :
    ∀ db : List ReviewTask.SessionRow, (∀ r ∈ db, r.id ≠ sid) →
      ReviewTask.failFirst sid msg retries (db ++ [row])
        = (db ++ [{ row with
              status := .failed,
              error_message := some msg,
              retry_count := some retries }],
           [(row.status, .failed)])
  | [], _ => by simp [ReviewTask.failFirst, hrow]
  | r :: rs, h => by
    have hr : ¬ r.id = sid := h r (List.mem_cons_self r rs)
    have ih := failFirst_append_fresh sid msg retries row hrow rs
      (fun x hx => h x (List.mem_cons_of_mem r hx))
    simp only [List.cons_append, ReviewTask.failFirst, if_neg hr, List.append_eq]
    rw [ih]

theorem processPrReview_run_shape (owner repo : String) (pull_number : Nat)
    (installation_id : String) (retries : Nat) (outcome : ReviewTask.ReviewOutcome)
    (db : List ReviewTask.SessionRow) :
    ∃ row : ReviewTask.SessionRow,
      (ReviewTask.processPrReview owner repo pull_number installation_id
        retries outcome db).db = db ++ [row] ∧
      ((ReviewTask.processPrReview owner repo pull_number installation_id
          retries outcome db).transitions = [(.in_progress, .completed)] ∨
       (ReviewTask.processPrReview owner repo pull_number installation_id
          retries outcome db).transitions = [(.in_progress, .failed)]) := by
  have hfresh : ∀ r ∈ db, r.id ≠ ReviewTask.freshId db := by
    intro r hr
    have := mem_id_lt_freshId hr
    omega
  cases outcome with
  | success risk =>
    refine ⟨⟨ReviewTask.freshId db, owner, repo, pull_number, installation_id,
      .completed, some risk, none, none⟩, ?_, Or.inl ?_⟩ <;>
      simp [ReviewTask.processPrReview,
        saveResultsFirst_append_fresh (ReviewTask.freshId db) risk
          ⟨ReviewTask.freshId db, owner, repo, pull_number, installation_id,
           .in_progress, none, none, none⟩ rfl db hfresh,
        completeFirst_append_fresh (ReviewTask.freshId db)
          ⟨ReviewTask.freshId db, owner, repo, pull_number, installation_id,
           .in_progress, some risk, none, none⟩ rfl db hfresh]
  | failAfterResults risk msg =>
    by_cases hret : retries < 3 <;>
      refine ⟨⟨ReviewTask.freshId db, owner, repo, pull_number, installation_id,
        .failed, some risk, some msg, some retries⟩, ?_, Or.inr ?_⟩ <;>
        simp [ReviewTask.processPrReview, hret,
          saveResultsFirst_append_fresh (ReviewTask.freshId db) risk
            ⟨ReviewTask.freshId db, owner, repo, pull_number, installation_id,
             .in_progress, none, none, none⟩ rfl db hfresh,
          failFirst_append_fresh (ReviewTask.freshId db) msg retries
            ⟨ReviewTask.freshId db, owner, repo, pull_number, installation_id,
             .in_progress, some risk, none, none⟩ rfl db hfresh]
  | failEarly msg =>
    by_cases hret : retries < 3 <;>
      refine ⟨⟨ReviewTask.freshId db, owner, repo, pull_number, installation_id,
        .failed, none, some msg, some retries⟩, ?_, Or.inr ?_⟩ <;>
        simp [ReviewTask.processPrReview, hret,
          failFirst_append_fresh (ReviewTask.freshId db) msg retries
            ⟨ReviewTask.freshId db, owner, repo, pull_number, installation_id,
             .in_progress, none, none, none⟩ rfl db hfresh]

/-- **C1 (counterexample).** A failing first delivery (retry counter 0,
below the maximum of 3) schedules a retry, and the retry run — executing
the same task body — inserts a second `ReviewSession` row: after the
initial run and one retry, two session rows exist for the task, not
one. -/
theorem retry_inserts_second_session_row :
    ((ReviewTask.processPrReview "octo" "repo" 1 "inst1" 0 (.failEarly "boom") []).outcome
      = .retryScheduled 60) ∧
    ((ReviewTask.processPrReview "octo" "repo" 1 "inst1" 1 (.success "Low")
        (ReviewTask.processPrReview "octo" "repo" 1 "inst1" 0
          (.failEarly "boom") []).db).db.length = 2) ∧
    ¬ ((ReviewTask.processPrReview "octo" "repo" 1 "inst1" 1 (.success "Low")
        (ReviewTask.processPrReview "octo" "repo" 1 "inst1" 0
          (.failEarly "boom") []).db).db.length = 1) := by
  decide

/-- **C1 (amended).** Every run of the review task — the initial delivery
and each retry redelivery (retry counter below the maximum of 3) alike —
inserts a brand-new `ReviewSession` row and appends it after the existing
rows, which it leaves untouched: a retry does not revise the previous
attempt's session row, so an initial run plus k retries leave k+1 session
rows for the task. -/
theorem processPrReview_always_inserts_row (owner repo : String) (pull_number : Nat)
    (installation_id : String) (retries : Nat) (outcome : ReviewTask.ReviewOutcome)
    (db : List ReviewTask.SessionRow) :
    ∃ row : ReviewTask.SessionRow,
      (ReviewTask.processPrReview owner repo pull_number installation_id
        retries outcome db).db = db ++ [row] ∧
      (ReviewTask.processPrReview owner repo pull_number installation_id
        retries outcome db).db.length = db.length + 1 := by
  obtain ⟨row, hdb, -⟩ := processPrReview_run_shape owner repo pull_number
    installation_id retries outcome db
  refine ⟨row, hdb, ?_⟩
  rw [hdb]
  simp

/-- Position of a status along the chain
`pending → in_progress → {completed, failed}` (the two terminal states
share the final position). -/
def statusRank : ReviewTask.SessStatus → Nat
  | .pending => 0
  | .in_progress => 1
  | .completed => 2
  | .failed => 2

/-- **C2.** Session status only moves forward along
`pending → in_progress → {completed | failed}`: every status UPDATE any
run of the review task performs (for any retry counter, any run outcome
and any prior table contents) takes its session from a strictly earlier
position in the chain to a strictly later one — concretely from
`in_progress` to a terminal state — and in particular no update ever
starts from, hence moves a session out of, `completed` or `failed`. -/
theorem sessionStatus_moves_forward (owner repo : String) (pull_number : Nat)
    (installation_id : String) (retries : Nat) (outcome : ReviewTask.ReviewOutcome)
    (db : List ReviewTask.SessionRow) :
    ((ReviewTask.processPrReview owner repo pull_number installation_id
        retries outcome db).transitions).all
      (fun t => decide (statusRank t.1 < statusRank t.2)
        && !(t.1 == ReviewTask.SessStatus.completed)
        && !(t.1 == ReviewTask.SessStatus.failed)) = true := by
  obtain ⟨row, -, h | h⟩ := processPrReview_run_shape owner repo pull_number
    installation_id retries outcome db <;> rw [h] <;> decide

namespace WebApp

/-- The PR actions that trigger a review (`app.py:220`). -/
def triggerActions : List String := ["opened", "synchronize", "ready_for_review"]

/-- The keyword arguments handed to `process_pr_review` when a review task
is queued (`app.py:231-238`); the values come straight from the parsed
payload. -/
structure ReviewTaskArgs where
  owner : JVal
  repo : JVal
  pull_number : JVal
  installation_id : JVal
  action : String

/-- What the webhook endpoint answers: the `{"status": "accepted", …}`
body, or an `HTTPException` with its status code. -/
inductive WebhookResponse where
  | accepted (delivery_id : Option String)
  | httpError (status : Nat)

/-- Observable outcome of one webhook delivery: the response and the
review tasks queued on `background_tasks`. -/
structure WebhookOutcome where
  response : WebhookResponse
  enqueued : List ReviewTaskArgs

/-- `webhook_data.get("pull_request", {})` (`app.py:221`). -/
def prBlock (fs : List (String × JVal)) : JVal :=
  (fs.lookup "pull_request").getD (.obj [])

/-- `webhook_data.get("repository", {})` (`app.py:222`). -/
def repoBlock (fs : List (String × JVal)) : JVal :=
  (fs.lookup "repository").getD (.obj [])

/-- `webhook_data.get("installation", {})` (`app.py:223`). -/
def instBlock (fs : List (String × JVal)) : JVal :=
  (fs.lookup "installation").getD (.obj [])

/-- `repo_data["owner"]["login"]` (`app.py:233`); `none` when either
subscript raises. -/
def ownerLogin (fs : List (String × JVal)) : Option JVal :=
  (jlookup (repoBlock fs) "owner").bind (fun o => jlookup o "login")

/-- The inner keys the queueing call subscripts must all resolve for a
task to be enqueued. -/
def requiredBlocks (fs : List (String × JVal)) : Bool :=
  (jlookup (prBlock fs) "number").isSome && (ownerLogin fs).isSome &&
  (jlookup (repoBlock fs) "name").isSome && (jlookup (instBlock fs) "id").isSome

/-- The trigger branch of `github_webhook` (`app.py:221-246`): the three
blocks must be truthy (else HTTP 400 `Missing required data`), then the
queueing call's keyword arguments are evaluated — a `KeyError`/`TypeError`
on any subscript escapes to the generic handler as HTTP 500 — and the
task is enqueued. -/
def handleTrigger (fs : List (String × JVal)) (a : String) (d : Option String) :
    WebhookOutcome :=
  if pyTruthy (prBlock fs) && pyTruthy (repoBlock fs) && pyTruthy (instBlock fs) then
    match ownerLogin fs, jlookup (repoBlock fs) "name",
          jlookup (prBlock fs) "number", jlookup (instBlock fs) "id" with
    | some login, some name, some num, some iid =>
      ⟨.accepted d, [⟨login, name, num, iid, a⟩]⟩
    | _, _, _, _ => ⟨.httpError 500, []⟩
  else ⟨.httpError 400, []⟩

/-- The `github_webhook` handler (`app.py:177-254`) after reading the raw
body: `sigOk` is `verify_github_signature`'s verdict (mismatch → 401),
`body` is the `json.loads` result (`none` = decode error → 400; a
non-object payload makes the logging's `.get` calls raise → 500).  Only a
`pull_request` event whose `action` is one of the trigger actions reaches
the trigger branch; every other delivery is acknowledged `accepted` with
nothing enqueued. -/
def githubWebhook (sigOk : Bool) (event : Option String) (body : Option JVal)
    (d : Option String) : WebhookOutcome :=
  if !sigOk then ⟨.httpError 401, []⟩
  else
    match body with
    | none => ⟨.httpError 400, []⟩
    | some (.obj fs) =>
      if event = some "pull_request" then
        match fs.lookup "action" with
        | some (.str a) =>
          if triggerActions.contains a then handleTrigger fs a d
          else ⟨.accepted d, []⟩
        | _ => ⟨.accepted d, []⟩
      else ⟨.accepted d, []⟩
    | some _ => ⟨.httpError 500, []⟩

end WebApp

theorem pyTruthy_of_jlookup {v : JVal} {k : String} {x : JVal}
    (h : jlookup v k = some x) : pyTruthy v = true := by
  cases v with
  | obj fs =>
    cases fs with
    | nil => simp [jlookup, List.lookup] at h
    | cons e rest => simp [pyTruthy]
  | null => simp [jlookup] at h
  | bool b => simp [jlookup] at h
  | num n => simp [jlookup] at h
  | str s => simp [jlookup] at h
  | arr xs => simp [jlookup] at h

theorem handleTrigger_enqueued_of_missing (fs : List (String × JVal)) (a : String)
    (d : Option String) (hreq : ¬ WebApp.requiredBlocks fs = true) :
    (WebApp.handleTrigger fs a d).enqueued = [] := by
  rw [WebApp.handleTrigger]
  by_cases hg : (pyTruthy (WebApp.prBlock fs) && pyTruthy (WebApp.repoBlock fs)
      && pyTruthy (WebApp.instBlock fs)) = true
  · rw [if_pos hg]
    cases h1 : WebApp.ownerLogin fs with
    | none => simp [h1]
    | some login =>
      cases h2 : jlookup (WebApp.repoBlock fs) "name" with
      | none => simp [h1, h2]
      | some name =>
        cases h3 : jlookup (WebApp.prBlock fs) "number" with
        | none => simp [h1, h2, h3]
        | some num =>
          cases h4 : jlookup (WebApp.instBlock fs) "id" with
          | none => simp [h1, h2, h3, h4]
          | some iid =>
            exact absurd (by simp [WebApp.requiredBlocks, h1, h2, h3, h4]) hreq
  · rw [if_neg hg]

theorem handleTrigger_enqueued_iff (fs : List (String × JVal)) (a : String)
    (d : Option String) :
    (WebApp.handleTrigger fs a d).enqueued ≠ [] ↔ WebApp.requiredBlocks fs = true := by
  constructor
  · intro hne
    by_contra hreq
    exact hne (handleTrigger_enqueued_of_missing fs a d hreq)
  · intro hreq
    simp only [WebApp.requiredBlocks, Bool.and_eq_true, Option.isSome_iff_exists] at hreq
    obtain ⟨⟨⟨⟨num, h3⟩, ⟨login, h1⟩⟩, ⟨name, h2⟩⟩, ⟨iid, h4⟩⟩ := hreq
    obtain ⟨o, ho, -⟩ := Option.bind_eq_some.mp h1
    have t1 : pyTruthy (WebApp.prBlock fs) = true := pyTruthy_of_jlookup h3
    have t2 : pyTruthy (WebApp.repoBlock fs) = true := pyTruthy_of_jlookup ho
    have t3 : pyTruthy (WebApp.instBlock fs) = true := pyTruthy_of_jlookup h4
    simp [WebApp.handleTrigger, t1, t2, t3, h1, h2, h3, h4]

/-- **C9.** For a webhook delivery with a valid signature and a JSON-object
payload, a review task is enqueued if and only if the event is a
`pull_request` event whose `action` is one of `opened`, `synchronize`,
`ready_for_review`, with the required
`pull_request`/`repository`/`installation` blocks present (carrying the
subscripted inner keys); and for any non-trigger action — such as
`"closed"` — nothing is enqueued and the response is still
`status: accepted`. -/
theorem githubWebhook_trigger_iff (event : Option String)
    (fs : List (String × JVal)) (d : Option String) :
    ((WebApp.githubWebhook true event (some (.obj fs)) d).enqueued ≠ []
      ↔ (event = some "pull_request" ∧
         (∃ a, fs.lookup "action" = some (.str a) ∧ a ∈ WebApp.triggerActions) ∧
         WebApp.requiredBlocks fs = true)) ∧
    (∀ a, fs.lookup "action" = some (.str a) → a ∉ WebApp.triggerActions →
      (WebApp.githubWebhook true event (some (.obj fs)) d).enqueued = [] ∧
      (WebApp.githubWebhook true event (some (.obj fs)) d).response
        = .accepted d) := by
  constructor
  · by_cases hev : event = some "pull_request"
    · cases hact : fs.lookup "action" with
      | none => simp [WebApp.githubWebhook, hev, hact]
      | some v =>
        cases v with
        | str a =>
          cases hmem : WebApp.triggerActions.contains a with
          | true =>
            have ha : a ∈ WebApp.triggerActions := List.mem_of_elem_eq_true hmem
            have hred : WebApp.githubWebhook true event (some (.obj fs)) d
                = WebApp.handleTrigger fs a d := by
              simp [WebApp.githubWebhook, hev, hact, ha]
            rw [hred, handleTrigger_enqueued_iff fs a d]
            constructor
            · intro hreq
              exact ⟨hev, ⟨a, rfl, ha⟩, hreq⟩
            · rintro ⟨-, -, hreq⟩
              exact hreq
          | false =>
            have hnm : a ∉ WebApp.triggerActions := fun hm => by
              have h2 : WebApp.triggerActions.contains a = true :=
                List.elem_eq_true_of_mem hm
              rw [h2] at hmem
              exact Bool.noConfusion hmem
            simp [WebApp.githubWebhook, hev, hact, hnm]
        | null => simp [WebApp.githubWebhook, hev, hact]
        | bool b => simp [WebApp.githubWebhook, hev, hact]
        | num n => simp [WebApp.githubWebhook, hev, hact]
        | arr xs => simp [WebApp.githubWebhook, hev, hact]
        | obj gs => simp [WebApp.githubWebhook, hev, hact]
    · simp [WebApp.githubWebhook, hev]
  · intro a hact hnmem
    by_cases hev : event = some "pull_request"
    · constructor <;> simp [WebApp.githubWebhook, hev, hact, hnmem]
    · constructor <;> simp [WebApp.githubWebhook, hev]

/-- A complete `pull_request` payload whose action is `closed`. -/
def closedPayload : List (String × JVal) :=
  [("action", .str "closed"),
   ("pull_request", .obj [("number", .num 7)]),
   ("repository", .obj [("owner", .obj [("login", .str "octo")]), ("name", .str "repo")]),
   ("installation", .obj [("id", .num 42)])]

theorem githubWebhook_trigger_iff_witness :
    (WebApp.githubWebhook true (some "pull_request") (some (.obj closedPayload))
        (some "d1")).enqueued = [] ∧
    (WebApp.githubWebhook true (some "pull_request") (some (.obj closedPayload))
        (some "d1")).response = .accepted (some "d1") :=
  (githubWebhook_trigger_iff (some "pull_request") closedPayload (some "d1")).2
    "closed" rfl (by decide)
